import Mathlib

/-!
Verification of the movie-ingestion pipeline in `src/app/scripts/loadDb.ts`
(repository `cine_rag`).

The development is a shallow embedding of the script:

* configuration constants are the fields of `CONFIG`;
* `ProgressState`, `loadProgress` model the checkpoint file
  (`ingest_progress.json`) and its loader;
* `runYear` / `ingestFrom` / `ingestMovies` model the orchestrator loop of
  `ingestMovies` (lines 329-373), with the outcome of each page's try-block
  abstracted into an oracle `world : Nat → Nat → PageOutcome`
  (`fetchFail` = the `withRetry`-wrapped catalog fetch threw after retries,
  `empty` = the fetch returned no movies, `success` = `processMovieBatch`
  resolved, `processFail` = `processMovieBatch` rejected);
* `processMovieM` / `processPageM` model the per-item pipeline of
  `processMovieBatch` (lines 202-280): quality filter, enrichment fetch,
  document-text composition, chunking, the per-chunk store existence check,
  embedding and batch accumulation.  The chunker, embedder, hash and
  enrichment services are external, so they are parameters of the model
  (`PipelineCtx`); the store is a list of document identifiers;
* `insertManyModel` / `fallbackInsert` / `insertBatchesE` model the
  batch-insert loop (lines 288-319) including its catch blocks; the external
  store's reaction to a bulk insert is abstracted by `StoreMode`;
* `withRetryGo` / `withRetryModel` model `withRetry` (lines 179-198), with
  the wrapped operation given as an attempt-indexed oracle;
* `rateLimitedFinish` / `seqCallStarts` model the timing behaviour of
  `fetchWithRateLimit` (lines 148-164) for calls issued back to back on a
  single control flow, and `pLimitFirstWave` models the start times of tasks
  submitted simultaneously under the `p-limit` concurrency scheduler
  (line 208 / line 280).

Machine numbers of the script (page counters, years, milliseconds) are
modelled as `Nat`; ratings, compared against the floating-point constant
`MIN_RATING` only by `<`, are modelled as `Rat`.
-/

namespace CineRag

/-- `CONFIG.RETRY_LIMIT` (line 45). -/
def RETRY_LIMIT : Nat := 3

/-- `CONFIG.TMDB_RATE_LIMIT_DELAY_MS` (line 48). -/
def TMDB_RATE_LIMIT_DELAY_MS : Nat := 350

/-- `CONFIG.CONCURRENCY_LIMIT` (line 47). -/
def CONCURRENCY_LIMIT : Nat := 5

/-- `CONFIG.MAX_PAGES_PER_YEAR` (line 49). -/
def MAX_PAGES_PER_YEAR : Nat := 500

/-- `CONFIG.MIN_RATING` (line 50). -/
def MIN_RATING : Rat := 7

/-- `CONFIG.BATCH_INSERT_SIZE` (line 53). -/
def BATCH_INSERT_SIZE : Nat := 20

/-- The `ProgressState` interface (lines 84-88).  The JS object
`lastSuccessfulPage : Record<number, number>` is modelled as an association
list from year to page. -/
structure ProgressState where
  currentYear : Nat
  completedYears : List Nat
  lastSuccessfulPage : List (Nat × Nat)
  deriving Repr, DecidableEq

/-- Reading `progress.lastSuccessfulPage[year]`: `none` when the key is
absent. -/
def lookupLSP (m : List (Nat × Nat)) (y : Nat) : Option Nat :=
  (m.find? (fun p => p.1 = y)).map (fun p => p.2)

/-- Assigning `progress.lastSuccessfulPage[year] = v`. -/
def updateLSP (m : List (Nat × Nat)) (y v : Nat) : List (Nat × Nat) :=
  (y, v) :: m.filter (fun p => p.1 ≠ y)

/-- `delete progress.lastSuccessfulPage[year]` (line 367). -/
def eraseLSP (m : List (Nat × Nat)) (y : Nat) : List (Nat × Nat) :=
  m.filter (fun p => p.1 ≠ y)

/-- Line 335: `let page = progress.lastSuccessfulPage[year] ?
progress.lastSuccessfulPage[year] + 1 : 1`.  The JS truthiness test makes a
stored value `0` behave like an absent key. -/
def startPageOf (st : ProgressState) (y : Nat) : Nat :=
  match lookupLSP st.lastSuccessfulPage y with
  | some k => if k = 0 then 1 else k + 1
  | none => 1

/-- Outcome of one iteration of the page loop's try-block (lines 340-361),
as seen by the orchestrator. -/
inductive PageOutcome where
  | fetchFail
  | empty
  | success
  | processFail
  deriving Repr, DecidableEq

/-- How one in-progress year ends: the catch block rethrew at `failPage`
(line 360), or the year's loop finished (empty page, or page limit). -/
inductive YearEnd where
  | aborted (failPage : Nat)
  | finished
  deriving Repr, DecidableEq

/-- The `while (page <= CONFIG.MAX_PAGES_PER_YEAR)` loop of `ingestMovies`
(lines 337-362) for one year.  Returns the trace of `(year, page)` catalog
fetches issued, the final progress state and how the year ended.  Each saved
state mirrors a `saveProgress` call (lines 354, 359). -/
def runYear (world : Nat → Nat → PageOutcome) (y : Nat) (st : ProgressState)
    (page : Nat) : List (Nat × Nat) × ProgressState × YearEnd :=
  if _h : page ≤ MAX_PAGES_PER_YEAR then
    match world y page with
    | .fetchFail => ([(y, page)], { st with currentYear := y }, .aborted page)
    | .processFail => ([(y, page)], { st with currentYear := y }, .aborted page)
    | .empty =>
        ([(y, page)], { st with completedYears := st.completedYears ++ [y] },
          .finished)
    | .success =>
        let st1 := { st with
          lastSuccessfulPage := updateLSP st.lastSuccessfulPage y page }
        let r := runYear world y st1 (page + 1)
        ((y, page) :: r.1, r.2)
  else ([], st, .finished)
termination_by MAX_PAGES_PER_YEAR + 1 - page

/-- The `for (let year = progress.currentYear; year <= endYear; year++)` loop
of `ingestMovies` (lines 333-370).  The Boolean is `true` when the run
aborted via the rethrow at line 360.  On a finished year line 365's guard
holds (either the page counter exceeded the limit or the year was pushed to
`completedYears`), so lines 366-368 advance the cursor and delete the year's
page entry. -/
def ingestFrom (world : Nat → Nat → PageOutcome) (endYear : Nat) (y : Nat)
    (st : ProgressState) : List (Nat × Nat) × ProgressState × Bool :=
  if _h : y ≤ endYear then
    let r := runYear world y st (startPageOf st y)
    match r.2.2 with
    | .aborted _ => (r.1, r.2.1, true)
    | .finished =>
        let st2 : ProgressState := { r.2.1 with
          currentYear := y + 1,
          lastSuccessfulPage := eraseLSP r.2.1.lastSuccessfulPage y }
        let r2 := ingestFrom world endYear (y + 1) st2
        (r.1 ++ r2.1, r2.2)
  else ([], st, false)
termination_by endYear + 1 - y

/-- `ingestMovies(collection, progress)` (lines 329-373): iterate from the
checkpoint's current year. -/
def ingestMovies (world : Nat → Nat → PageOutcome) (endYear : Nat)
    (st : ProgressState) : List (Nat × Nat) × ProgressState × Bool :=
  ingestFrom world endYear st.currentYear st

/-- The `Movie` interface (lines 11-17).  JS strings that may be missing are
modelled as possibly-empty strings (falsy = `""`). -/
structure Movie where
  id : Nat
  title : String
  overview : String
  release_date : String
  vote_average : Rat
  deriving Repr, DecidableEq

/-- The `ChunkDocument` interface (lines 31-41); the `$vector` field is
named `vector`. -/
structure ChunkDocument where
  _id : String
  vector : List Int
  text : String
  title : String
  release_date : String
  rating : Rat
  where_to_watch : List String
  source : String
  chunk_index : Nat
  deriving Repr, DecidableEq

/-- External services used by the per-item pipeline, as pure oracles.
`chunkFn` is `splitter.splitText` (line 238), `embedFn` is
`getGeminiEmbedding` behind `withRetry` (its final outcome after retries,
line 255), `hashFn` is `hashId` = hex SHA-256 (line 144), and `providersFn`
is `fetchWatchProviders` behind `withRetry` (final outcome, line 221). -/
structure PipelineCtx where
  chunkFn : String → List String
  embedFn : String → Except Unit (List Int)
  hashFn : String → String
  providersFn : Nat → Except Unit (List String)

/-- The hash input of line 242: `` `${title}_${release_date}_${i}` ``. -/
def movieChunkKey (title release_date : String) (i : Nat) : String :=
  title ++ "_" ++ release_date ++ "_" ++ toString i

/-- Line 242: `const docId = hashId(`...`)`. -/
def docIdOf (ctx : PipelineCtx) (m : Movie) (i : Nat) : String :=
  ctx.hashFn (movieChunkKey m.title m.release_date i)

/-- Line 226-228: the availability line of the composed document text. -/
def providerTextOf (providers : List String) : String :=
  if providers = [] then "Availability: Unknown"
  else "Available on: " ++ String.intercalate ", " providers

/-- Lines 230-236: the composed document text (`fullContent`).  A missing
synopsis is replaced by the placeholder, not filtered. -/
def fullContentOf (m : Movie) (providers : List String) : String :=
  "Title: " ++ m.title ++ "\n" ++
  "Overview: " ++ (if m.overview = "" then "No overview available."
    else m.overview) ++ "\n" ++
  "Rating: " ++ toString m.vote_average ++ "\n" ++
  "Release Date: " ++ m.release_date ++ "\n" ++
  providerTextOf providers

/-- Line 268: the provenance URL. -/
def sourceUrlOf (m : Movie) : String :=
  "https://www.themoviedb.org/movie/" ++ toString m.id

/-- What one movie (or one page) contributes to the shared mutable state of
`processMovieBatch`: the accumulated `batch` array, the `duplicateCount` and
`newCount` counters, the texts sent to the embedder, and the number of items
whose processing threw (caught and logged at lines 275-277). -/
structure PageResult where
  batch : List ChunkDocument
  duplicateCount : Nat
  newCount : Nat
  embedCalls : List String
  errorCount : Nat
  deriving Repr, DecidableEq

/-- The per-chunk loop of `processMovie` (lines 240-272), starting at chunk
index `i`.  The store is the list of `_id`s present in the collection: the
`findOne` existence check of line 245 is membership.  A `duplicateCount`
increment skips the chunk; otherwise the chunk is embedded and pushed.  An
embedding failure throws out of the item's loop: chunks already pushed and
counters already incremented stay (the arrays are shared), later chunks are
not processed. -/
def processChunksFrom (ctx : PipelineCtx) (store : List String) (m : Movie)
    (chunks : List String) (i : Nat) : PageResult :=
  match chunks with
  | [] => ⟨[], 0, 0, [], 0⟩
  | c :: rest =>
    let docId := docIdOf ctx m i
    if docId ∈ store then
      let r := processChunksFrom ctx store m rest (i + 1)
      ⟨r.batch, r.duplicateCount + 1, r.newCount, r.embedCalls, r.errorCount⟩
    else
      match ctx.embedFn c with
      | .error _ => ⟨[], 0, 0, [c], 1⟩
      | .ok v =>
        let r := processChunksFrom ctx store m rest (i + 1)
        ⟨⟨docId, v, c, m.title, m.release_date, m.vote_average,
            [], sourceUrlOf m, i⟩ :: r.batch,
          r.duplicateCount, r.newCount + 1, c :: r.embedCalls, r.errorCount⟩

/-- `processMovie` (lines 213-278): the quality filter at line 217 returns
early on a falsy title, falsy release date, or rating below the floor; then
the enrichment fetch, text composition, chunking and the per-chunk loop.
The `where_to_watch` field of each produced document is the fetched provider
list (patched in over the chunk loop's result). -/
def processMovieM (ctx : PipelineCtx) (store : List String) (m : Movie) :
    PageResult :=
  if m.title = "" ∨ m.release_date = "" ∨ m.vote_average < MIN_RATING then
    ⟨[], 0, 0, [], 0⟩
  else
    match ctx.providersFn m.id with
    | .error _ => ⟨[], 0, 0, [], 1⟩
    | .ok providers =>
      let content := fullContentOf m providers
      let chunks := ctx.chunkFn content
      let r := processChunksFrom ctx store m chunks 0
      { r with batch := r.batch.map (fun d => { d with
          where_to_watch := providers }) }

/-- Combining two contributions to the page's shared state. -/
def PageResult.append (a b : PageResult) : PageResult :=
  ⟨a.batch ++ b.batch, a.duplicateCount + b.duplicateCount,
    a.newCount + b.newCount, a.embedCalls ++ b.embedCalls,
    a.errorCount + b.errorCount⟩

/-- Lines 208, 280: the bounded fan-out over the page's movies.  Items have
no cross-item dependency and the store is only read during processing, so
the page's aggregate state is modelled by sequential accumulation. -/
def processPageM (ctx : PipelineCtx) (store : List String)
    (movies : List Movie) : PageResult :=
  match movies with
  | [] => ⟨[], 0, 0, [], 0⟩
  | m :: rest =>
    (processMovieM ctx store m).append (processPageM ctx store rest)

/-- Errors surfaced by the store driver: a duplicate-key error
(`err.code === 11000`, lines 301, 308) or anything else. -/
inductive InsErr where
  | dup
  | other
  deriving Repr, DecidableEq

/-- How the external store reacts to `insertMany(..., { ordered: false })`
(line 291): `dupThrows` rejects the whole batch with the duplicate-key error
when any document's identifier conflicts, `dupSkips` resolves with a partial
`insertedCount`, and `otherFails` rejects with a non-duplicate error. -/
inductive StoreMode where
  | dupThrows
  | dupSkips
  | otherFails
  deriving Repr, DecidableEq

/-- Inserting the identifiers of a slice one by one, skipping ones already
present; returns the new store and the number inserted. -/
def foldInsert (st : List String) (docs : List ChunkDocument) :
    List String × Nat :=
  match docs with
  | [] => (st, 0)
  | d :: rest =>
    if d._id ∈ st then foldInsert st rest
    else
      let r := foldInsert (d._id :: st) rest
      (r.1, r.2 + 1)

/-- Whether a slice conflicts with the store (or contains two documents with
the same identifier). -/
def sliceConflicts (st : List String) (docs : List ChunkDocument) : Prop :=
  (∃ d ∈ docs, d._id ∈ st) ∨ ¬ (docs.map ChunkDocument._id).Nodup

instance (st : List String) (docs : List ChunkDocument) :
    Decidable (sliceConflicts st docs) :=
  inferInstanceAs (Decidable ((∃ d ∈ docs, d._id ∈ st) ∨
    ¬ (docs.map ChunkDocument._id).Nodup))

/-- The store's response to `collection.insertMany(batchSlice,
{ ordered: false })` (line 291), per `StoreMode`. -/
def insertManyModel (mode : StoreMode) (st : List String)
    (docs : List ChunkDocument) : Except InsErr (List String × Nat) :=
  match mode with
  | .otherFails => .error .other
  | .dupSkips => .ok (foldInsert st docs)
  | .dupThrows =>
    if sliceConflicts st docs then .error .dup
    else .ok (foldInsert st docs)

/-- The per-document fallback loop (lines 303-314): `insertOne` each
document; a duplicate-key rejection is logged and skipped, any other
rejection is logged (line 311) — neither is rethrown, so the loop always
completes. -/
def fallbackInsert (st : List String) (docs : List ChunkDocument) :
    List String :=
  match docs with
  | [] => st
  | d :: rest =>
    fallbackInsert (if d._id ∈ st then st else d._id :: st) rest

/-- One iteration of the insert loop's body (lines 290-318): try
`insertMany`; in the catch block a duplicate-key error runs the fallback
loop, and any other error is logged (`console.error`, line 316) and
swallowed — the code has no rethrow, so no `.error` is produced. -/
def insertSliceStep (mode : StoreMode) (st : List String)
    (docs : List ChunkDocument) : Except InsErr (List String) :=
  match insertManyModel mode st docs with
  | .ok (st', _insertedCount) => .ok st'
  | .error .dup => .ok (fallbackInsert st docs)
  | .error .other => .ok st

/-- The batch-insert loop of `processMovieBatch` (lines 288-319): the
accumulated batch is cut into slices of `BATCH_INSERT_SIZE` and each slice
is submitted; an error escaping a slice's try/catch would abort the page. -/
def insertBatchesE (mode : StoreMode) (st : List String)
    (docs : List ChunkDocument) : Except InsErr (List String) :=
  if _h : docs = [] then .ok st
  else
    match insertSliceStep mode st (docs.take BATCH_INSERT_SIZE) with
    | .ok st' => insertBatchesE mode st' (docs.drop BATCH_INSERT_SIZE)
    | .error e => .error e
termination_by docs.length
decreasing_by
  simp only [List.length_drop]
  rcases docs with _ | ⟨d, rest⟩
  · simp at _h
  · simp only [List.length_cons, BATCH_INSERT_SIZE]
    omega

/-- The store after the insert loop (the loop never produces an error, so
the default branch is unreachable). -/
def insertStore (mode : StoreMode) (st : List String)
    (docs : List ChunkDocument) : List String :=
  match insertBatchesE mode st docs with
  | .ok st' => st'
  | .error _ => st

/-- `processMovieBatch(collection, movies, year, page)` (lines 202-325):
process the page's movies, then run the insert loop on the accumulated
batch.  Returns the store after the page together with the page's counters;
an `.error` would be the promise rejecting. -/
def processMovieBatchM (ctx : PipelineCtx) (mode : StoreMode)
    (st : List String) (movies : List Movie) :
    Except InsErr (List String × PageResult) :=
  let r := processPageM ctx st movies
  match insertBatchesE mode st r.batch with
  | .ok st' => .ok (st', r)
  | .error e => .error e

/-- The page loop of `ingestMovies` again (lines 337-362), with the
try-block's body given concretely instead of by the `PageOutcome` oracle:
the catalog fetch is an oracle (`none` = the fetch threw after retries), and
a nonempty page runs `processMovieBatchM` — which, because every failure
inside it is caught, always resolves, making the success branch (checkpoint
update, line 353) unconditional.  Used to relate checkpoint advancement to
what actually reached the store. -/
def runYearFull (ctx : PipelineCtx) (mode : StoreMode)
    (catalog : Nat → Nat → Option (List Movie)) (y : Nat)
    (st : ProgressState) (store : List String) (page : Nat) :
    ProgressState × List String × YearEnd :=
  if _h : page ≤ MAX_PAGES_PER_YEAR then
    match catalog y page with
    | none => ({ st with currentYear := y }, store, .aborted page)
    | some [] =>
        ({ st with completedYears := st.completedYears ++ [y] }, store,
          .finished)
    | some (mv :: rest) =>
        match processMovieBatchM ctx mode store (mv :: rest) with
        | .error _ => ({ st with currentYear := y }, store, .aborted page)
        | .ok (store2, _r) =>
            runYearFull ctx mode catalog y
              { st with lastSuccessfulPage :=
                  updateLSP st.lastSuccessfulPage y page }
              store2 (page + 1)
  else (st, store, .finished)
termination_by MAX_PAGES_PER_YEAR + 1 - page

/-- `withRetry` (lines 179-198): the `for (let i = 0; i <= retries; i++)`
loop.  The wrapped operation is an attempt-indexed oracle `fn`; the result
is paired with the number of attempts made.  Every rejection is handled by
the same catch block: the error is rethrown only when `i === retries`
(line 188), with `i ≤ retries` an invariant of the loop. -/
def withRetryGo (fn : Nat → Except InsErr α) (retries i : Nat) :
    Except InsErr α × Nat :=
  match fn i with
  | .ok v => (.ok v, 1)
  | .error e =>
    if _h : retries ≤ i then (.error e, 1)
    else
      let r := withRetryGo fn retries (i + 1)
      (r.1, r.2 + 1)
termination_by retries - i

/-- `withRetry(fn, context)` with the default retry budget
`CONFIG.RETRY_LIMIT`. -/
def withRetryModel (fn : Nat → Except InsErr α) : Except InsErr α × Nat :=
  withRetryGo fn RETRY_LIMIT 0

/-- `fetchWithRateLimit` timing (lines 148-164): a call starting at `start`
whose network portion takes `dur` returns at `start + dur` and then, in the
finally block, sleeps `TMDB_RATE_LIMIT_DELAY_MS - elapsed` when the elapsed
time is below the minimum delay.  The result is the time at which the
wrapper completes. -/
def rateLimitedFinish (start dur : Nat) : Nat :=
  let elapsed := dur
  start + dur +
    (if elapsed < TMDB_RATE_LIMIT_DELAY_MS then
      TMDB_RATE_LIMIT_DELAY_MS - elapsed
    else 0)

/-- Start times of calls issued back to back on a single control flow (each
call awaited before the next starts), the i-th call's network portion taking
`durs[i]`. -/
def seqCallStarts (t0 : Nat) (durs : List Nat) : List Nat :=
  match durs with
  | [] => []
  | d :: rest => t0 :: seqCallStarts (rateLimitedFinish t0 d) rest

/-- Start times of the first wave of tasks submitted together to the
`p-limit` scheduler (`pLimit(CONFIG.CONCURRENCY_LIMIT)`, line 208): a task
starts immediately while a slot is free, so with `count` tasks enqueued at
`t0` the first `min limit count` all start at `t0`.  `fetchWithRateLimit`
keeps no state shared between calls (its sleep depends only on the call's
own start and duration), so nothing constrains these starts apart. -/
def pLimitFirstWave (limit count t0 : Nat) : List Nat :=
  List.replicate (min limit count) t0

/-- The minimum-spacing property the spec asserts for a list of call start
times of one call class. -/
def SpacedBy (delay : Nat) (starts : List Nat) : Prop :=
  List.Chain' (fun a b => a + delay ≤ b) starts

instance (delay : Nat) (starts : List Nat) :
    Decidable (SpacedBy delay starts) :=
  inferInstanceAs (Decidable (List.Chain' (fun a b => a + delay ≤ b) starts))

/-- The possible states of the progress file as `loadProgress` (lines
90-103) sees them: absent (`existsSync` false), unreadable (`readFileSync`
throws), unparsable (`JSON.parse` throws), or parsed to a state. -/
inductive ProgressFile where
  | absent
  | unreadable
  | unparsable
  | parsed (s : ProgressState)
  deriving Repr, DecidableEq

/-- The fresh state of lines 98-102.  `startYear` is
`validateEnv().startYear`, a parameter here because the environment was
already validated by `main` (line 378). -/
def freshProgress (startYear : Nat) : ProgressState :=
  ⟨startYear, [], []⟩

/-- `loadProgress()` (lines 90-103): a parsed file is returned as-is; an
absent file skips the read, and an unreadable or unparsable file throws into
the catch block (which only warns) — all three fall through to the fresh
state. -/
def loadProgress (f : ProgressFile) (startYear : Nat) : ProgressState :=
  match f with
  | .parsed s => s
  | .absent => freshProgress startYear
  | .unreadable => freshProgress startYear
  | .unparsable => freshProgress startYear

/-! ## Concrete instances used by witnesses and counterexamples -/

/-- A pipeline context for concrete runs: the chunker returns the whole text
as one chunk (what `RecursiveCharacterTextSplitter` does on texts at most
512 characters long), the embedder always succeeds, the hash is the identity
(the claims never rely on injectivity or opacity of SHA-256), and the
enrichment fetch succeeds with no providers. -/
def ctx0 : PipelineCtx :=
  ⟨fun s => [s], fun _ => Except.ok [0], id, fun _ => Except.ok []⟩

/-- A movie passing the quality filter. -/
def mGood : Movie := ⟨1, "A", "great movie", "2020-01-01", 8⟩

/-- A movie with an empty synopsis but a good rating, title and date. -/
def mNoOverview : Movie := ⟨2, "B", "", "2021-05-05", 9⟩

/-- A movie below the rating floor. -/
def mLowRating : Movie := ⟨3, "C", "meh", "2019-01-01", 5⟩

/-- A concrete document for insert-loop runs. -/
def doc0 : ChunkDocument := ⟨"d0", [0], "t", "T", "2020-01-01", 8, [], "s", 0⟩

/-- A page-outcome oracle: pages 1-4 of every year succeed, page 5 is
empty. -/
def wEx : Nat → Nat → PageOutcome :=
  fun _ p => if p ≤ 4 then .success else .empty

/-- A page-outcome oracle: page 1 succeeds, every later page's catalog
fetch fails after retries. -/
def wAbort : Nat → Nat → PageOutcome :=
  fun _ p => if p = 1 then .success else .fetchFail

/-- A checkpoint state resuming year 2020 with pages 1-3 committed. -/
def stEx : ProgressState := ⟨2020, [], [(2020, 3)]⟩

/-- A fresh checkpoint state at year 2020. -/
def stEmpty : ProgressState := ⟨2020, [], []⟩

/-- A catalog oracle: page 1 of every year holds one good movie, every
later page is empty. -/
def cat0 : Nat → Nat → Option (List Movie) :=
  fun _ p => if p = 1 then some [mGood] else some []

/-! ## C10 -/

/-- C10: if the progress file is absent, unreadable, or contains unparsable
JSON, `loadProgress` does not fail: it returns the fresh state
`{currentYear: startYear, completedYears: [], lastSuccessfulPage: {}}`,
discarding any prior progress. -/
theorem c10_checkpoint_load_fallback (startYear : Nat) :
    loadProgress .absent startYear = freshProgress startYear ∧
    loadProgress .unreadable startYear = freshProgress startYear ∧
    loadProgress .unparsable startYear = freshProgress startYear :=
  ⟨rfl, rfl, rfl⟩

/-! ## C8 -/

/-- C8: the document identifier of line 242 is a pure function of the item's
title, release date and chunk index: two movies agreeing on title and
release date get the same identifier for every chunk index, whatever their
other fields (id, synopsis, rating) are, and for any hash function the two
runs share. -/
theorem c8_identifier_deterministic (ctx : PipelineCtx) (m1 m2 : Movie)
    (i : Nat) (ht : m1.title = m2.title)
    (hd : m1.release_date = m2.release_date) :
    docIdOf ctx m1 i = docIdOf ctx m2 i := by
  unfold docIdOf movieChunkKey
  rw [ht, hd]

/-- C8 witness: two concrete movies differing in id, synopsis and rating but
agreeing on title and release date receive the same chunk-0 identifier. -/
theorem c8_identifier_deterministic_witness :
    Movie.title ⟨7, "A", "x", "2020-01-01", 8⟩
        = Movie.title ⟨9, "A", "y", "2020-01-01", 3⟩ ∧
    Movie.release_date ⟨7, "A", "x", "2020-01-01", 8⟩
        = Movie.release_date ⟨9, "A", "y", "2020-01-01", 3⟩ ∧
    docIdOf ctx0 ⟨7, "A", "x", "2020-01-01", 8⟩ 0
        = docIdOf ctx0 ⟨9, "A", "y", "2020-01-01", 3⟩ 0 :=
  ⟨rfl, rfl,
    c8_identifier_deterministic ctx0 ⟨7, "A", "x", "2020-01-01", 8⟩
      ⟨9, "A", "y", "2020-01-01", 3⟩ 0 rfl rfl⟩

/-! ## C4 -/

/-- C4 counterexample: the claim says a non-retryable failure such as a
duplicate-identifier conflict propagates immediately without consuming any
retry attempt.  In `withRetry` (lines 179-198) the catch block treats every
error alike: an operation that always rejects with the duplicate-key error
is attempted `RETRY_LIMIT + 1 = 4` times, consuming the whole retry budget,
before the error propagates. -/
theorem c4_counterexample :
    withRetryModel (α := Unit) (fun _ => Except.error InsErr.dup)
      = (Except.error InsErr.dup, RETRY_LIMIT + 1) := by
  simp [withRetryModel, withRetryGo, RETRY_LIMIT]

/-- Helper for C4: the retry loop from attempt `i` with every attempt up to
the budget failing. -/
theorem withRetryGo_all_fail (fn : Nat → Except InsErr α) (e : Nat → InsErr)
    (retries : Nat) :
    ∀ n i, retries - i = n → i ≤ retries →
      (∀ j, i ≤ j → j ≤ retries → fn j = .error (e j)) →
      withRetryGo fn retries i = (.error (e retries), retries - i + 1) := by
  intro n
  induction n with
  | zero =>
    intro i hn hle hf
    have hieq : i = retries := by omega
    rw [withRetryGo, hf i le_rfl hle]
    simp [hieq]
  | succ n ih =>
    intro i hn hle hf
    have hlt : i < retries := by omega
    rw [withRetryGo, hf i le_rfl hle]
    simp only [dif_neg (not_le.mpr hlt)]
    have hrec := ih (i + 1) (by omega) (by omega)
      (fun j hj hj2 => hf j (by omega) hj2)
    rw [hrec]
    have hs : retries - (i + 1) + 1 = retries - i := by omega
    simp [hs]

/-- C4 amended: `withRetry` makes no distinction between error kinds; any
operation that keeps failing — with the duplicate-identifier conflict or any
other error — is attempted `RETRY_LIMIT + 1` times and only the final
attempt's error propagates.  Only the error of the last attempt is
surfaced. -/
theorem c4_amended (fn : Nat → Except InsErr α) (e : Nat → InsErr)
    (hf : ∀ j ≤ RETRY_LIMIT, fn j = .error (e j)) :
    withRetryModel fn = (.error (e RETRY_LIMIT), RETRY_LIMIT + 1) := by
  unfold withRetryModel
  have := withRetryGo_all_fail fn e RETRY_LIMIT (RETRY_LIMIT - 0) 0 rfl
    (Nat.zero_le _) (fun j _ hj2 => hf j hj2)
  simpa using this

/-- C4 amended witness: an operation always failing with a non-duplicate
error is attempted 4 times. -/
theorem c4_amended_witness :
    withRetryModel (α := Unit) (fun _ => Except.error InsErr.other)
      = (Except.error InsErr.other, RETRY_LIMIT + 1) :=
  c4_amended (fun _ => Except.error InsErr.other) (fun _ => InsErr.other)
    (fun _ _ => rfl)

/-! ## C9 -/

/-- C9 counterexample: the claim says any two consecutive calls of the same
class through the rate limiter are spaced at least
`TMDB_RATE_LIMIT_DELAY_MS` apart.  `fetchWithRateLimit` keeps no state
shared between calls — each call only pads its own duration — so the
enrichment fetches issued concurrently under
`pLimit(CONFIG.CONCURRENCY_LIMIT)` (lines 208, 221, 280) can start
simultaneously: with two items enqueued together both calls start at time 0,
a spacing of 0 < 350. -/
theorem c9_counterexample :
    pLimitFirstWave CONCURRENCY_LIMIT 2 0 = [0, 0] ∧
    ¬ SpacedBy TMDB_RATE_LIMIT_DELAY_MS (pLimitFirstWave CONCURRENCY_LIMIT 2 0) := by
  constructor
  · decide
  · intro h
    have h2 : pLimitFirstWave CONCURRENCY_LIMIT 2 0 = [0, 0] := by decide
    rw [h2] at h
    unfold SpacedBy at h
    rw [List.chain'_cons] at h
    have h3 := h.1
    simp [TMDB_RATE_LIMIT_DELAY_MS] at h3

/-- C9 amended: calls issued back to back on a single control flow (each
call awaited before the next one starts, as the orchestrator's catalog page
fetches are) are spaced at least `TMDB_RATE_LIMIT_DELAY_MS` apart, whatever
their network durations; concurrent calls under the scheduler have no such
guarantee. -/
theorem c9_amended (t0 : Nat) (durs : List Nat) :
    SpacedBy TMDB_RATE_LIMIT_DELAY_MS (seqCallStarts t0 durs) := by
  unfold SpacedBy
  induction durs generalizing t0 with
  | nil => simp [seqCallStarts]
  | cons d rest ih =>
    rw [seqCallStarts]
    rcases rest with _ | ⟨d2, r2⟩
    · simp [seqCallStarts]
    · rw [List.chain'_cons']
      refine ⟨?_, ih _⟩
      intro b hb
      rw [seqCallStarts] at hb
      simp only [List.head?_cons, Option.mem_def, Option.some.injEq] at hb
      subst hb
      unfold rateLimitedFinish
      dsimp only
      split <;> omega

/-! ## C6 -/

/-- C6 counterexample: the claim says an item missing its synopsis yields
zero IndexedDocuments.  The filter at line 217 checks only title, release
date and rating; a missing synopsis is replaced by the placeholder text at
line 232, so a movie with an empty synopsis, a good title, date and rating
still produces a document (and, correctly, no error). -/
theorem c6_counterexample :
    (processMovieM ctx0 [] mNoOverview).batch.length = 1 ∧
    (processMovieM ctx0 [] mNoOverview).errorCount = 0 := by
  constructor
  · decide
  · decide

/-- C6 amended: an item with a falsy title, a falsy release date, or a
rating below `MIN_RATING` yields zero documents, zero embeddings and zero
recorded errors (the quality filter returns before any external call);
a missing synopsis alone is not filtered — the composed text falls back to
a placeholder. -/
theorem c6_quality_filter (ctx : PipelineCtx) (store : List String)
    (m : Movie)
    (h : m.title = "" ∨ m.release_date = "" ∨ m.vote_average < MIN_RATING) :
    processMovieM ctx store m = ⟨[], 0, 0, [], 0⟩ := by
  unfold processMovieM
  rw [if_pos h]

/-- C6 witness: the sub-floor movie is filtered to the empty result. -/
theorem c6_quality_filter_witness :
    processMovieM ctx0 [] mLowRating = ⟨[], 0, 0, [], 0⟩ :=
  c6_quality_filter ctx0 [] mLowRating (by decide)

/-! ## C5 -/

/-- Helper: when every chunk identifier from index `i` on is already in the
store, the chunk loop produces nothing, embeds nothing, and counts every
chunk as a duplicate. -/
theorem processChunks_allDup (ctx : PipelineCtx) (store : List String)
    (m : Movie) (chunks : List String) (i : Nat)
    (hs : ∀ j, j < chunks.length → docIdOf ctx m (i + j) ∈ store) :
    processChunksFrom ctx store m chunks i = ⟨[], chunks.length, 0, [], 0⟩ := by
  induction chunks generalizing i with
  | nil => rfl
  | cons c rest ih =>
    have h0 : docIdOf ctx m i ∈ store := by
      have := hs 0 (by simp)
      simpa using this
    have hrec := ih (i + 1) (fun j hj => by
      have h1 := hs (j + 1) (by simpa using Nat.succ_lt_succ hj)
      have h2 : i + (j + 1) = i + 1 + j := by omega
      rwa [h2] at h1)
    rw [processChunksFrom, if_pos h0, hrec]
    simp

/-- Helper: when every chunk identifier of a filter-passing movie is already
in the store, the whole per-item pipeline yields no documents, no embedding
calls, no errors, and a duplicate count equal to the chunk count. -/
theorem processMovie_allDup (ctx : PipelineCtx) (store : List String)
    (m : Movie) (providers : List String)
    (hT : ¬ (m.title = "" ∨ m.release_date = "" ∨ m.vote_average < MIN_RATING))
    (hp : ctx.providersFn m.id = .ok providers)
    (hs : ∀ i, i < (ctx.chunkFn (fullContentOf m providers)).length →
      docIdOf ctx m i ∈ store) :
    processMovieM ctx store m
      = ⟨[], (ctx.chunkFn (fullContentOf m providers)).length, 0, [], 0⟩ := by
  unfold processMovieM
  rw [if_neg hT, hp]
  dsimp only
  rw [processChunks_allDup ctx store m _ 0 (fun j hj => by simpa using hs j hj)]
  simp

/-- C5 counterexample: the claim says each chunk's deduplication key is
checked against an in-memory run-scoped set (as well as the store).  No such
set exists in `processMovieBatch`: when the same item occurs twice in one
page (store still empty, so the authoritative `findOne` check misses — the
first occurrence's document is only in the in-memory batch array), the
second occurrence is embedded again and pushed again, and no duplicate is
counted. -/
theorem c5_counterexample :
    (processPageM ctx0 [] [mGood, mGood]).embedCalls.length = 2 ∧
    (processPageM ctx0 [] [mGood, mGood]).duplicateCount = 0 ∧
    ¬ ((processPageM ctx0 [] [mGood, mGood]).batch.map
        ChunkDocument._id).Nodup := by
  refine ⟨by decide, by decide, by decide⟩

/-- C5 amended: only the authoritative existence-by-identifier check against
the store (the `findOne` at line 245) is performed — there is no in-memory
run-scoped set — and a hit in that authoritative layer does skip both
re-embedding and re-insertion: a filter-passing item all of whose chunk
identifiers are in the store contributes no embedding call, no batch
document and no error, only duplicate-skips. -/
theorem c5_authoritative_dedup (ctx : PipelineCtx) (store : List String)
    (m : Movie) (providers : List String)
    (hT : ¬ (m.title = "" ∨ m.release_date = "" ∨ m.vote_average < MIN_RATING))
    (hp : ctx.providersFn m.id = .ok providers)
    (hs : ∀ i, i < (ctx.chunkFn (fullContentOf m providers)).length →
      docIdOf ctx m i ∈ store) :
    (processMovieM ctx store m).embedCalls = [] ∧
    (processMovieM ctx store m).batch = [] ∧
    (processMovieM ctx store m).duplicateCount
      = (ctx.chunkFn (fullContentOf m providers)).length ∧
    (processMovieM ctx store m).errorCount = 0 := by
  rw [processMovie_allDup ctx store m providers hT hp hs]
  exact ⟨rfl, rfl, rfl, rfl⟩

/-- C5 amended witness: with the single chunk identifier of the good movie
already stored, reprocessing it embeds nothing, inserts nothing and counts
one duplicate. -/
theorem c5_authoritative_dedup_witness :
    (processMovieM ctx0 [docIdOf ctx0 mGood 0] mGood).embedCalls = [] ∧
    (processMovieM ctx0 [docIdOf ctx0 mGood 0] mGood).batch = [] ∧
    (processMovieM ctx0 [docIdOf ctx0 mGood 0] mGood).duplicateCount
      = (ctx0.chunkFn (fullContentOf mGood [])).length ∧
    (processMovieM ctx0 [docIdOf ctx0 mGood 0] mGood).errorCount = 0 :=
  c5_authoritative_dedup ctx0 [docIdOf ctx0 mGood 0] mGood []
    (by decide) rfl (by decide)

/-! ## C3 -/

/-- Helper: the one-by-one insert keeps everything already in the store and
lands every document's identifier. -/
theorem foldInsert_mem (docs : List ChunkDocument) :
    ∀ st : List String, (∀ x ∈ st, x ∈ (foldInsert st docs).1) ∧
      (∀ d ∈ docs, d._id ∈ (foldInsert st docs).1) := by
  induction docs with
  | nil => intro st; exact ⟨fun x hx => hx, by simp⟩
  | cons d rest ih =>
    intro st
    rw [foldInsert]
    by_cases hd : d._id ∈ st
    · rw [if_pos hd]
      refine ⟨(ih st).1, ?_⟩
      intro d' hd'
      rcases List.mem_cons.mp hd' with h | h
      · subst h; exact (ih st).1 _ hd
      · exact (ih st).2 d' h
    · rw [if_neg hd]
      have h1 := (ih (d._id :: st)).1
      refine ⟨fun x hx => h1 x (List.mem_cons.mpr (Or.inr hx)), ?_⟩
      intro d' hd'
      rcases List.mem_cons.mp hd' with h | h
      · subst h; exact h1 _ (List.mem_cons.mpr (Or.inl rfl))
      · exact (ih (d._id :: st)).2 d' h

/-- Helper: the one-by-one insert preserves the no-duplicates invariant of
the store. -/
theorem foldInsert_nodup (docs : List ChunkDocument) :
    ∀ st : List String, st.Nodup → (foldInsert st docs).1.Nodup := by
  induction docs with
  | nil => intro st h; exact h
  | cons d rest ih =>
    intro st h
    rw [foldInsert]
    by_cases hd : d._id ∈ st
    · rw [if_pos hd]; exact ih st h
    · rw [if_neg hd]
      exact ih (d._id :: st) (List.nodup_cons.mpr ⟨hd, h⟩)

/-- Helper: the per-document fallback loop has the same effect on the store
as the one-by-one insert. -/
theorem fallbackInsert_eq (docs : List ChunkDocument) :
    ∀ st : List String, fallbackInsert st docs = (foldInsert st docs).1 := by
  induction docs with
  | nil => intro st; rfl
  | cons d rest ih =>
    intro st
    rw [fallbackInsert, foldInsert]
    by_cases hd : d._id ∈ st
    · rw [if_pos hd, if_pos hd, ih st]
    · rw [if_neg hd, if_neg hd, ih (d._id :: st)]

/-- Helper: one slice of the insert loop never produces an error (the catch
block rethrows nothing); the store keeps its contents, gains every
document's identifier unless the store failed with a non-duplicate error,
and stays duplicate-free. -/
theorem insertSliceStep_spec (mode : StoreMode) (st : List String)
    (docs : List ChunkDocument) :
    ∃ s, insertSliceStep mode st docs = .ok s ∧
      (∀ x ∈ st, x ∈ s) ∧
      (mode ≠ .otherFails → ∀ d ∈ docs, d._id ∈ s) ∧
      (st.Nodup → s.Nodup) := by
  cases mode with
  | otherFails =>
    exact ⟨st, rfl, fun x hx => hx, fun h => absurd rfl h, fun h => h⟩
  | dupSkips =>
    exact ⟨(foldInsert st docs).1, rfl, (foldInsert_mem docs st).1,
      fun _ => (foldInsert_mem docs st).2, foldInsert_nodup docs st⟩
  | dupThrows =>
    unfold insertSliceStep insertManyModel
    by_cases hc : sliceConflicts st docs
    · rw [if_pos hc]
      exact ⟨fallbackInsert st docs, rfl,
        fallbackInsert_eq docs st ▸ (foldInsert_mem docs st).1,
        fun _ => fallbackInsert_eq docs st ▸ (foldInsert_mem docs st).2,
        fallbackInsert_eq docs st ▸ foldInsert_nodup docs st⟩
    · rw [if_neg hc]
      exact ⟨(foldInsert st docs).1, rfl, (foldInsert_mem docs st).1,
        fun _ => (foldInsert_mem docs st).2, foldInsert_nodup docs st⟩

/-- Helper: the whole insert loop never produces an error, and the final
store contains the initial store, every submitted identifier (when the store
did not reject with a non-duplicate error), and no duplicates. -/
theorem insertBatchesE_spec (mode : StoreMode) (docs : List ChunkDocument) :
    ∀ st : List String, ∃ s, insertBatchesE mode st docs = .ok s ∧
      (∀ x ∈ st, x ∈ s) ∧
      (mode ≠ .otherFails → ∀ d ∈ docs, d._id ∈ s) ∧
      (st.Nodup → s.Nodup) := by
  generalize hn : docs.length = n
  induction n using Nat.strong_induction_on generalizing docs with
  | _ n ih =>
    intro st
    by_cases h0 : docs = []
    · subst h0
      rw [insertBatchesE]
      exact ⟨st, by simp, fun x hx => hx, by simp, fun h => h⟩
    · obtain ⟨s1, hs1, hmem1, hids1, hnd1⟩ :=
        insertSliceStep_spec mode st (docs.take BATCH_INSERT_SIZE)
      have hlen : (docs.drop BATCH_INSERT_SIZE).length < n := by
        subst hn
        rcases docs with _ | ⟨d, rest⟩
        · exact absurd rfl h0
        · simp only [List.length_drop, List.length_cons, BATCH_INSERT_SIZE]
          omega
      obtain ⟨s, hs, hmem, hids, hnd⟩ :=
        ih (docs.drop BATCH_INSERT_SIZE).length hlen _ rfl s1
      refine ⟨s, ?_, fun x hx => hmem x (hmem1 x hx), ?_, fun h => hnd (hnd1 h)⟩
      · rw [insertBatchesE, dif_neg h0, hs1]
        exact hs
      · intro hmode d hd
        have : d ∈ docs.take BATCH_INSERT_SIZE ∨ d ∈ docs.drop BATCH_INSERT_SIZE := by
          rw [← List.mem_append, List.take_append_drop]
          exact hd
        rcases this with h | h
        · exact hmem _ (hids1 hmode d h)
        · exact hids hmode d h

/-- C3 counterexample: the claim says any error other than a duplicate-key
conflict is propagated to the orchestrator so the page is not checkpointed.
In the catch block at lines 300-318 the non-duplicate branch only logs
(`console.error`, line 316) and does not rethrow: a bulk insert rejected
with a non-duplicate error leaves the loop completing normally (`.ok`) with
the slice's documents silently dropped (the store still empty), so
`processMovieBatch` resolves and the orchestrator checkpoints the page. -/
theorem c3_counterexample :
    insertBatchesE .otherFails [] [doc0] = .ok [] := by
  simp [insertBatchesE, insertSliceStep, insertManyModel, BATCH_INSERT_SIZE]

/-- C3 amended: on a whole-batch duplicate-identifier rejection the writer
falls back to per-document insertion, so every document of the batch whose
identifier is not already present is still inserted (all submitted
identifiers end up present) and conflicts are skipped rather than treated as
failures; but no error of any kind is propagated to the orchestrator — a
non-duplicate store error is logged and swallowed and the page is still
checkpointed.  Stated for the store behaviours in which inserts can land
(`hmode`): the loop completes without error and the final store contains the
old store and every submitted identifier. -/
theorem c3_batch_error_containment (mode : StoreMode) (st : List String)
    (docs : List ChunkDocument) (hmode : mode ≠ .otherFails) :
    insertBatchesE mode st docs = .ok (insertStore mode st docs) ∧
    (∀ x ∈ st, x ∈ insertStore mode st docs) ∧
    (∀ d ∈ docs, d._id ∈ insertStore mode st docs) := by
  obtain ⟨s, hs, hmem, hids, _⟩ := insertBatchesE_spec mode docs st
  have hstore : insertStore mode st docs = s := by
    unfold insertStore
    rw [hs]
  rw [hstore]
  exact ⟨hs, hmem, hids hmode⟩

/-- C3 amended witness: a batch whose only document conflicts with the store
(whole-batch duplicate rejection under `dupThrows`) still completes with the
identifier present and no error. -/
theorem c3_batch_error_containment_witness :
    insertBatchesE .dupThrows ["d0"] [doc0]
      = .ok (insertStore .dupThrows ["d0"] [doc0]) ∧
    (∀ x ∈ ["d0"], x ∈ insertStore .dupThrows ["d0"] [doc0]) ∧
    (∀ d ∈ [doc0], d._id ∈ insertStore .dupThrows ["d0"] [doc0]) :=
  c3_batch_error_containment .dupThrows ["d0"] [doc0] (by decide)

/-! ## C7 -/

/-- Helper: when the chunk loop recorded no error, every chunk identifier
from index `i` on is either already in the store (duplicate-skipped) or in
the produced batch. -/
theorem processChunks_cover (ctx : PipelineCtx) (store : List String)
    (m : Movie) (chunks : List String) :
    ∀ i, (processChunksFrom ctx store m chunks i).errorCount = 0 →
      ∀ j, j < chunks.length → docIdOf ctx m (i + j) ∈ store ∨
        docIdOf ctx m (i + j)
          ∈ (processChunksFrom ctx store m chunks i).batch.map
            ChunkDocument._id := by
  induction chunks with
  | nil => intro i _ j hj; simp at hj
  | cons c rest ih =>
    intro i herr j hj
    rw [processChunksFrom] at herr ⊢
    by_cases hd : docIdOf ctx m i ∈ store
    · rw [if_pos hd] at herr ⊢
      rcases j with _ | j
      · exact Or.inl (by simpa using hd)
      · have h2 : i + (j + 1) = i + 1 + j := by omega
        rw [h2]
        exact ih (i + 1) (by simpa using herr) j (by simpa using hj)
    · rw [if_neg hd] at herr ⊢
      cases hemb : ctx.embedFn c with
      | error e => rw [hemb] at herr; simp at herr
      | ok v =>
        rw [hemb] at herr
        dsimp only at herr ⊢
        rcases j with _ | j
        · refine Or.inr ?_
          simp
        · have h2 : i + (j + 1) = i + 1 + j := by omega
          rw [h2]
          rcases ih (i + 1) (by simpa using herr) j (by simpa using hj) with
            h | h
          · exact Or.inl h
          · refine Or.inr ?_
            simp only [List.map_cons, List.mem_cons]
            exact Or.inr h

/-- Helper: the identifiers of the page batch are unchanged by the
`where_to_watch` patch applied in `processMovieM`. -/
theorem processMovie_cover (ctx : PipelineCtx) (store : List String)
    (m : Movie) (providers : List String)
    (hT : ¬ (m.title = "" ∨ m.release_date = "" ∨ m.vote_average < MIN_RATING))
    (hp : ctx.providersFn m.id = .ok providers)
    (herr : (processMovieM ctx store m).errorCount = 0) :
    ∀ j, j < (ctx.chunkFn (fullContentOf m providers)).length →
      docIdOf ctx m j ∈ store ∨
      docIdOf ctx m j ∈ (processMovieM ctx store m).batch.map
        ChunkDocument._id := by
  unfold processMovieM at herr ⊢
  rw [if_neg hT, hp] at herr ⊢
  dsimp only at herr ⊢
  intro j hj
  have := processChunks_cover ctx store m
    (ctx.chunkFn (fullContentOf m providers)) 0 herr j hj
  simpa [List.map_map, Function.comp] using this

/-- C7: re-ingesting an item whose first (error-free) ingestion committed
its batch yields at most one IndexedDocument per (item, chunk-index): after
the first run's batch is inserted, the store holds each identifier at most
once, the second processing of the same item produces no document and no
embedding call and reports every chunk as a duplicate-skip, and the store is
unchanged by the second run's (empty) insert. -/
theorem c7_idempotent_reingest (ctx : PipelineCtx) (mode : StoreMode)
    (st : List String) (m : Movie) (providers : List String)
    (hmode : mode ≠ .otherFails) (hnd : st.Nodup)
    (hT : ¬ (m.title = "" ∨ m.release_date = "" ∨ m.vote_average < MIN_RATING))
    (hp : ctx.providersFn m.id = .ok providers)
    (herr : (processMovieM ctx st m).errorCount = 0) :
    processMovieM ctx (insertStore mode st (processMovieM ctx st m).batch) m
      = ⟨[], (ctx.chunkFn (fullContentOf m providers)).length, 0, [], 0⟩ ∧
    insertStore mode
        (insertStore mode st (processMovieM ctx st m).batch)
        (processMovieM ctx
          (insertStore mode st (processMovieM ctx st m).batch) m).batch
      = insertStore mode st (processMovieM ctx st m).batch ∧
    (insertStore mode st (processMovieM ctx st m).batch).Nodup := by
  obtain ⟨s, hs, hmem, hids, hndS⟩ :=
    insertBatchesE_spec mode (processMovieM ctx st m).batch st
  have hstore : insertStore mode st (processMovieM ctx st m).batch = s := by
    unfold insertStore
    rw [hs]
  have hall : ∀ j, j < (ctx.chunkFn (fullContentOf m providers)).length →
      docIdOf ctx m j ∈ s := by
    intro j hj
    rcases processMovie_cover ctx st m providers hT hp herr j hj with h | h
    · exact hmem _ h
    · rcases List.mem_map.mp h with ⟨d, hd, hid⟩
      exact hid ▸ hids hmode d hd
  have hsecond := processMovie_allDup ctx s m providers hT hp hall
  rw [hstore]
  refine ⟨hsecond, ?_, hndS hnd⟩
  rw [hsecond]
  unfold insertStore
  rw [show insertBatchesE mode s
    (PageResult.batch ⟨[], (ctx.chunkFn (fullContentOf m providers)).length,
      0, [], 0⟩) = .ok s by simp [insertBatchesE]]

/-- C7 witness: the good movie ingested into an empty store under the
partial-insert store behaviour, then re-ingested: the second attempt yields
no document, reports its one chunk as a duplicate, and leaves the store
unchanged and duplicate-free. -/
theorem c7_idempotent_reingest_witness :
    processMovieM ctx0
        (insertStore .dupSkips [] (processMovieM ctx0 [] mGood).batch) mGood
      = ⟨[], (ctx0.chunkFn (fullContentOf mGood [])).length, 0, [], 0⟩ ∧
    insertStore .dupSkips
        (insertStore .dupSkips [] (processMovieM ctx0 [] mGood).batch)
        (processMovieM ctx0
          (insertStore .dupSkips [] (processMovieM ctx0 [] mGood).batch)
          mGood).batch
      = insertStore .dupSkips [] (processMovieM ctx0 [] mGood).batch ∧
    (insertStore .dupSkips [] (processMovieM ctx0 [] mGood).batch).Nodup :=
  c7_idempotent_reingest ctx0 .dupSkips [] mGood []
    (by decide) (List.nodup_nil) (by decide) rfl (by decide)

/-! ## C1 and C2: orchestrator lemmas -/

/-- Helper: looking a different year up is unaffected by dropping `y`'s
entries. -/
theorem lookupLSP_filter_other (y z : Nat) (hzy : z ≠ y) :
    ∀ m : List (Nat × Nat),
      lookupLSP (m.filter (fun p => p.1 ≠ y)) z = lookupLSP m z := by
  intro m
  induction m with
  | nil => rfl
  | cons a rest ih =>
    unfold lookupLSP at ih ⊢
    rw [List.filter_cons]
    by_cases hay : a.1 = y
    · rw [if_neg (by simpa using hay)]
      rw [List.find?_cons_of_neg _
        (by simp only [decide_eq_true_eq]; rw [hay]; exact fun h => hzy h.symm)]
      exact ih
    · rw [if_pos (by simpa using hay)]
      by_cases haz : a.1 = z
      · rw [List.find?_cons_of_pos _ (by simpa using haz),
          List.find?_cons_of_pos _ (by simpa using haz)]
      · rw [List.find?_cons_of_neg _ (by simpa using haz),
          List.find?_cons_of_neg _ (by simpa using haz)]
        exact ih

/-- Helper: updating year `y`'s entry leaves other years' lookups
unchanged. -/
theorem lookupLSP_update_other (m : List (Nat × Nat)) (y v z : Nat)
    (hzy : z ≠ y) : lookupLSP (updateLSP m y v) z = lookupLSP m z := by
  unfold updateLSP
  have h1 : lookupLSP ((y, v) :: m.filter (fun p => p.1 ≠ y)) z
      = lookupLSP (m.filter (fun p => p.1 ≠ y)) z := by
    unfold lookupLSP
    rw [List.find?_cons_of_neg _
      (by simp only [decide_eq_true_eq]; exact fun h => hzy h.symm)]
  rw [h1]
  exact lookupLSP_filter_other y z hzy m

/-- Helper: updating year `y`'s entry makes its lookup the new value. -/
theorem lookupLSP_update_self (m : List (Nat × Nat)) (y v : Nat) :
    lookupLSP (updateLSP m y v) y = some v := by
  unfold updateLSP lookupLSP
  rw [List.find?_cons]
  simp

/-- Helper: deleting year `y`'s entry leaves other years' lookups
unchanged. -/
theorem lookupLSP_erase_other (m : List (Nat × Nat)) (y z : Nat)
    (hzy : z ≠ y) : lookupLSP (eraseLSP m y) z = lookupLSP m z :=
  lookupLSP_filter_other y z hzy m

/-- Helper: the resume page is at least 1. -/
theorem startPageOf_pos (st : ProgressState) (y : Nat) :
    1 ≤ startPageOf st y := by
  unfold startPageOf
  rcases lookupLSP st.lastSuccessfulPage y with _ | k
  · exact le_refl _
  · dsimp only
    split <;> omega

/-- Helper: with a stored last-successful page `k`, the resume page is
`k + 1` (the JS truthiness quirk at `k = 0` still gives `1 = 0 + 1`). -/
theorem startPageOf_eq_of_lookup (st : ProgressState) (y k : Nat)
    (h : lookupLSP st.lastSuccessfulPage y = some k) :
    startPageOf st y = k + 1 := by
  unfold startPageOf
  rw [h]
  rcases Nat.eq_zero_or_pos k with hk | hk
  · subst hk; rfl
  · simp [Nat.pos_iff_ne_zero.mp hk]

/-- Helper: a stored entry is always below the resume page. -/
theorem lookup_lt_startPage (st : ProgressState) (y k : Nat)
    (h : lookupLSP st.lastSuccessfulPage y = some k) :
    k < startPageOf st y := by
  rw [startPageOf_eq_of_lookup st y k h]
  omega

/-- Helper: every catalog fetch recorded by the page loop is for year `y`
at a page not below the starting page. -/
theorem runYear_trace_mem (w : Nat → Nat → PageOutcome) (y : Nat) :
    ∀ st p, ∀ e ∈ (runYear w y st p).1, e.1 = y ∧ p ≤ e.2 := by
  intro st p
  induction st, p using runYear.induct w y with
  | case1 st p hp hw =>
    intro e he
    rw [runYear, dif_pos hp, hw] at he
    simp at he
    subst he
    exact ⟨rfl, le_refl _⟩
  | case2 st p hp hw =>
    intro e he
    rw [runYear, dif_pos hp, hw] at he
    simp at he
    subst he
    exact ⟨rfl, le_refl _⟩
  | case3 st p hp hw =>
    intro e he
    rw [runYear, dif_pos hp, hw] at he
    simp at he
    subst he
    exact ⟨rfl, le_refl _⟩
  | case4 st p hp hw st1 ih =>
    intro e he
    rw [runYear, dif_pos hp, hw] at he
    simp only [List.mem_cons] at he
    rcases he with he | he
    · subst he; exact ⟨rfl, le_refl _⟩
    · have := ih e he
      exact ⟨this.1, by omega⟩
  | case5 st p hp =>
    intro e he
    rw [runYear, dif_neg hp] at he
    simp at he

/-- Helper: if the page loop's trace has a head, it is the starting page's
fetch. -/
theorem runYear_trace_head (w : Nat → Nat → PageOutcome) (y : Nat) :
    ∀ st p pr, (runYear w y st p).1.head? = some pr → pr = (y, p) := by
  intro st p
  induction st, p using runYear.induct w y with
  | case1 st p hp hw =>
    intro pr hpr
    rw [runYear, dif_pos hp, hw] at hpr
    simpa [eq_comm] using hpr
  | case2 st p hp hw =>
    intro pr hpr
    rw [runYear, dif_pos hp, hw] at hpr
    simpa [eq_comm] using hpr
  | case3 st p hp hw =>
    intro pr hpr
    rw [runYear, dif_pos hp, hw] at hpr
    simpa [eq_comm] using hpr
  | case4 st p hp hw st1 ih =>
    intro pr hpr
    rw [runYear, dif_pos hp, hw] at hpr
    simpa [eq_comm] using hpr
  | case5 st p hp =>
    intro pr hpr
    rw [runYear, dif_neg hp] at hpr
    simp at hpr

/-- Helper: the page loop touches only year `y`'s checkpoint entry. -/
theorem runYear_lsp_other (w : Nat → Nat → PageOutcome) (y : Nat) :
    ∀ st p z, z ≠ y →
      lookupLSP (runYear w y st p).2.1.lastSuccessfulPage z
        = lookupLSP st.lastSuccessfulPage z := by
  intro st p
  induction st, p using runYear.induct w y with
  | case1 st p hp hw =>
    intro z hz
    rw [runYear, dif_pos hp, hw]
  | case2 st p hp hw =>
    intro z hz
    rw [runYear, dif_pos hp, hw]
  | case3 st p hp hw =>
    intro z hz
    rw [runYear, dif_pos hp, hw]
  | case4 st p hp hw st1 ih =>
    intro z hz
    rw [runYear, dif_pos hp, hw]
    dsimp only
    rw [ih z hz]
    exact lookupLSP_update_other st.lastSuccessfulPage y p z hz
  | case5 st p hp =>
    intro z hz
    rw [runYear, dif_neg hp]

/-- Helper: the page loop's checkpoint entry for `y` can only name pages of
the loop's own successful iterations: if the final entry is a page at or
past the loop's starting page, that page's try-block succeeded. -/
theorem runYear_advance_success (w : Nat → Nat → PageOutcome) (y : Nat) :
    ∀ st p, (∀ k0, lookupLSP st.lastSuccessfulPage y = some k0 → k0 < p) →
      ∀ q, p ≤ q →
        lookupLSP (runYear w y st p).2.1.lastSuccessfulPage y = some q →
        w y q = .success := by
  intro st p
  induction st, p using runYear.induct w y with
  | case1 st p hp hw =>
    intro h0 q hq hlq
    rw [runYear, dif_pos hp, hw] at hlq
    dsimp only at hlq
    exact absurd (h0 q hlq) (by omega)
  | case2 st p hp hw =>
    intro h0 q hq hlq
    rw [runYear, dif_pos hp, hw] at hlq
    dsimp only at hlq
    exact absurd (h0 q hlq) (by omega)
  | case3 st p hp hw =>
    intro h0 q hq hlq
    rw [runYear, dif_pos hp, hw] at hlq
    dsimp only at hlq
    exact absurd (h0 q hlq) (by omega)
  | case4 st p hp hw st1 ih =>
    intro h0 q hq hlq
    rw [runYear, dif_pos hp, hw] at hlq
    dsimp only at hlq
    have h0' : ∀ k0, lookupLSP st1.lastSuccessfulPage y = some k0 →
        k0 < p + 1 := by
      intro k0 hk0
      rw [show st1.lastSuccessfulPage
          = updateLSP st.lastSuccessfulPage y p from rfl,
        lookupLSP_update_self] at hk0
      cases hk0
      omega
    rcases Nat.eq_or_lt_of_le hq with heq | hlt
    · subst heq
      exact hw
    · exact ih h0' q (by omega) hlq
  | case5 st p hp =>
    intro h0 q hq hlq
    rw [runYear, dif_neg hp] at hlq
    exact absurd (h0 q hlq) (by omega)

/-- Helper: when the page loop aborts (the catch block rethrew), the
checkpoint entry was advanced exactly through the pages before the failing
one — every earlier page from the start succeeded, the failing page's
try-block threw, and the resume page recomputed from the final state is the
failing page itself. -/
theorem runYear_abort_resume (w : Nat → Nat → PageOutcome) (y : Nat) :
    ∀ st p, 1 ≤ p → startPageOf st y = p →
      ∀ pf, (runYear w y st p).2.2 = .aborted pf →
        startPageOf (runYear w y st p).2.1 y = pf ∧
        (w y pf = .fetchFail ∨ w y pf = .processFail) ∧
        (∀ q, p ≤ q → q < pf → w y q = .success) := by
  intro st p
  induction st, p using runYear.induct w y with
  | case1 st p hp hw =>
    intro h1 hsp pf hab
    rw [runYear, dif_pos hp, hw] at hab ⊢
    dsimp only at hab ⊢
    cases hab
    refine ⟨hsp, Or.inl hw, ?_⟩
    intro q hq hqf
    omega
  | case2 st p hp hw =>
    intro h1 hsp pf hab
    rw [runYear, dif_pos hp, hw] at hab ⊢
    dsimp only at hab ⊢
    cases hab
    refine ⟨hsp, Or.inr hw, ?_⟩
    intro q hq hqf
    omega
  | case3 st p hp hw =>
    intro h1 hsp pf hab
    rw [runYear, dif_pos hp, hw] at hab
    simp at hab
  | case4 st p hp hw st1 ih =>
    intro h1 hsp pf hab
    rw [runYear, dif_pos hp, hw] at hab ⊢
    dsimp only at hab ⊢
    have hsp1 : startPageOf st1 y = p + 1 := by
      apply startPageOf_eq_of_lookup
      rw [show st1.lastSuccessfulPage
        = updateLSP st.lastSuccessfulPage y p from rfl]
      exact lookupLSP_update_self st.lastSuccessfulPage y p
    obtain ⟨ha, hb, hc⟩ := ih (by omega) hsp1 pf hab
    refine ⟨ha, hb, ?_⟩
    intro q hq hqf
    rcases Nat.eq_or_lt_of_le hq with heq | hlt
    · subst heq
      exact hw
    · exact hc q (by omega) hqf
  | case5 st p hp =>
    intro h1 hsp pf hab
    rw [runYear, dif_neg hp] at hab
    simp at hab

/-- Helper: under the always-failing store the insert loop still resolves,
leaving the store untouched. -/
theorem insertBatchesE_otherFails (docs : List ChunkDocument) :
    ∀ st, insertBatchesE .otherFails st docs = .ok st := by
  generalize hn : docs.length = n
  induction n using Nat.strong_induction_on generalizing docs with
  | _ n ih =>
    intro st
    by_cases h0 : docs = []
    · subst h0
      rw [insertBatchesE]
      simp
    · rw [insertBatchesE, dif_neg h0]
      rw [show insertSliceStep .otherFails st (docs.take BATCH_INSERT_SIZE)
        = .ok st from rfl]
      have hlen : (docs.drop BATCH_INSERT_SIZE).length < n := by
        subst hn
        rcases docs with _ | ⟨d, rest⟩
        · exact absurd rfl h0
        · simp only [List.length_drop, List.length_cons, BATCH_INSERT_SIZE]
          omega
      exact ih _ hlen _ rfl st

/-- C2 counterexample: the claim says the checkpoint entry for a page is
updated only after that page's documents have been durably written.  Because
the batch writer swallows non-duplicate store errors (line 316),
`processMovieBatch` resolves even when nothing was written: under the
always-failing store, page 1 of year 2020 produces a nonempty batch, the
store stays empty, yet the loop checkpoints `lastSuccessfulPage[2020] = 1`
and moves on. -/
theorem c2_counterexample :
    lookupLSP (runYearFull ctx0 .otherFails cat0 2020 stEmpty []
      1).1.lastSuccessfulPage 2020 = some 1 ∧
    (runYearFull ctx0 .otherFails cat0 2020 stEmpty [] 1).2.1 = [] ∧
    (processPageM ctx0 [] [mGood]).batch ≠ [] := by
  have hb : processMovieBatchM ctx0 .otherFails [] [mGood]
      = .ok ([], processPageM ctx0 [] [mGood]) := by
    unfold processMovieBatchM
    dsimp only
    rw [insertBatchesE_otherFails]
  have h1 : runYearFull ctx0 .otherFails cat0 2020 stEmpty [] 1
      = runYearFull ctx0 .otherFails cat0 2020
        ⟨2020, [], [(2020, 1)]⟩ [] 2 := by
    rw [runYearFull, dif_pos (by norm_num [MAX_PAGES_PER_YEAR])]
    rw [show cat0 2020 1 = some [mGood] from rfl]
    dsimp only
    rw [hb]
    rfl
  have h2 : runYearFull ctx0 .otherFails cat0 2020
      ⟨2020, [], [(2020, 1)]⟩ [] 2
      = (⟨2020, [2020], [(2020, 1)]⟩, [], .finished) := by
    rw [runYearFull, dif_pos (by norm_num [MAX_PAGES_PER_YEAR])]
    rw [show cat0 2020 2 = some [] from rfl]
    rfl
  rw [h1, h2]
  refine ⟨rfl, rfl, by decide⟩

/-- C2 amended: within the orchestrator loop the checkpoint entry for a year
is advanced exactly for pages whose try-block completed — the fetch
succeeded nonempty and `processMovieBatch` resolved (which, because the
batch writer logs and swallows store errors, does not by itself guarantee
the documents were written); entries of other years are untouched.  On an
error that does propagate (e.g. a catalog fetch failing after retries) the
entry is not advanced past the completed pages, and the resume page
recomputed from the saved state is exactly the failing page, so a restart
resumes at the first incomplete page. -/
theorem c2_checkpoint_advance (w : Nat → Nat → PageOutcome) (y : Nat)
    (st : ProgressState) :
    (∀ q, startPageOf st y ≤ q →
      lookupLSP (runYear w y st
        (startPageOf st y)).2.1.lastSuccessfulPage y = some q →
      w y q = .success) ∧
    (∀ z, z ≠ y →
      lookupLSP (runYear w y st (startPageOf st y)).2.1.lastSuccessfulPage z
        = lookupLSP st.lastSuccessfulPage z) ∧
    (∀ pf, (runYear w y st (startPageOf st y)).2.2 = .aborted pf →
      startPageOf (runYear w y st (startPageOf st y)).2.1 y = pf ∧
      (w y pf = .fetchFail ∨ w y pf = .processFail) ∧
      (∀ q, startPageOf st y ≤ q → q < pf → w y q = .success)) := by
  refine ⟨?_, ?_, ?_⟩
  · exact runYear_advance_success w y st (startPageOf st y)
      (fun k0 hk0 => lookup_lt_startPage st y k0 hk0)
  · exact fun z hz => runYear_lsp_other w y st (startPageOf st y) z hz
  · exact runYear_abort_resume w y st (startPageOf st y)
      (startPageOf_pos st y) rfl

/-- C2 amended witness: under the oracle that succeeds on page 1 and then
fails fetching, the year loop from a fresh state checkpoints page 1, aborts
at page 2, and the recomputed resume page is 2. -/
theorem c2_checkpoint_advance_witness :
    (∀ q, startPageOf stEmpty 2020 ≤ q →
      lookupLSP (runYear wAbort 2020 stEmpty
        (startPageOf stEmpty 2020)).2.1.lastSuccessfulPage 2020 = some q →
      wAbort 2020 q = .success) ∧
    (∀ z, z ≠ 2020 →
      lookupLSP (runYear wAbort 2020 stEmpty
        (startPageOf stEmpty 2020)).2.1.lastSuccessfulPage z
        = lookupLSP stEmpty.lastSuccessfulPage z) ∧
    (∀ pf, (runYear wAbort 2020 stEmpty
        (startPageOf stEmpty 2020)).2.2 = .aborted pf →
      startPageOf (runYear wAbort 2020 stEmpty
        (startPageOf stEmpty 2020)).2.1 2020 = pf ∧
      (wAbort 2020 pf = .fetchFail ∨ wAbort 2020 pf = .processFail) ∧
      (∀ q, startPageOf stEmpty 2020 ≤ q → q < pf →
        wAbort 2020 q = .success)) :=
  c2_checkpoint_advance wAbort 2020 stEmpty

/-- Helper: every catalog fetch of the year loop belongs to the starting
year or a later one. -/
theorem ingestFrom_trace_ge (w : Nat → Nat → PageOutcome) (endY : Nat) :
    ∀ y st, ∀ e ∈ (ingestFrom w endY y st).1, y ≤ e.1 := by
  intro y
  generalize hn : endY + 1 - y = n
  induction n using Nat.strong_induction_on generalizing y with
  | _ n ih =>
    intro st e he
    by_cases h : y ≤ endY
    · rw [ingestFrom, dif_pos h] at he
      dsimp only at he
      cases hr : (runYear w y st (startPageOf st y)).2.2 with
      | aborted a =>
        rw [hr] at he
        dsimp only at he
        exact le_of_eq (runYear_trace_mem w y st _ e he).1.symm
      | finished =>
        rw [hr] at he
        dsimp only at he
        rcases List.mem_append.mp he with h1 | h1
        · exact le_of_eq (runYear_trace_mem w y st _ e h1).1.symm
        · have := ih (endY + 1 - (y + 1)) (by omega) (y + 1) rfl _ e h1
          omega
    · rw [ingestFrom, dif_neg h] at he
      simp at he

/-- Helper: resumability of the year loop, from any starting year. -/
theorem ingestFrom_resumes (w : Nat → Nat → PageOutcome) (endY P k : Nat) :
    ∀ y st, lookupLSP st.lastSuccessfulPage P = some k →
      (∀ p, (P, p) ∈ (ingestFrom w endY y st).1 → k + 1 ≤ p) ∧
      (∀ pr, ((ingestFrom w endY y st).1.filter
          (fun e => e.1 == P)).head? = some pr → pr = (P, k + 1)) := by
  intro y
  generalize hn : endY + 1 - y = n
  induction n using Nat.strong_induction_on generalizing y with
  | _ n ih =>
    intro st hst
    by_cases h : y ≤ endY
    · rw [ingestFrom, dif_pos h]
      dsimp only
      by_cases hy : y = P
      · subst hy
        have hsp : startPageOf st y = k + 1 :=
          startPageOf_eq_of_lookup st y k hst
        have hchunk1 : ∀ p, (y, p) ∈ (runYear w y st (startPageOf st y)).1 →
            k + 1 ≤ p := by
          intro p hp
          have h2 := (runYear_trace_mem w y st (startPageOf st y) (y, p) hp).2
          omega
        have hallw : ∀ e ∈ (runYear w y st (startPageOf st y)).1,
            (e.1 == y) = true := by
          intro e he
          simp only [beq_iff_eq]
          exact (runYear_trace_mem w y st (startPageOf st y) e he).1
        have hhead : ∀ pr,
            ((runYear w y st (startPageOf st y)).1.filter
              (fun e => e.1 == y)).head? = some pr → pr = (y, k + 1) := by
          intro pr hpr
          rw [List.filter_eq_self.mpr hallw] at hpr
          have := runYear_trace_head w y st (startPageOf st y) pr hpr
          rw [this, hsp]
        cases hr : (runYear w y st (startPageOf st y)).2.2 with
        | aborted a =>
          dsimp only
          exact ⟨hchunk1, hhead⟩
        | finished =>
          dsimp only
          constructor
          · intro p hp
            rcases List.mem_append.mp hp with h1 | h1
            · exact hchunk1 p h1
            · have := ingestFrom_trace_ge w endY (y + 1) _ (y, p) h1
              omega
          · intro pr hpr
            rw [List.filter_append] at hpr
            have htail : ((ingestFrom w endY (y + 1)
                { (runYear w y st (startPageOf st y)).2.1 with
                  currentYear := y + 1,
                  lastSuccessfulPage := eraseLSP
                    (runYear w y st (startPageOf st y)).2.1.lastSuccessfulPage
                    y }).1.filter (fun e => e.1 == y)) = [] := by
              rw [List.filter_eq_nil_iff]
              intro e he
              have := ingestFrom_trace_ge w endY (y + 1) _ e he
              simp only [beq_iff_eq]
              omega
            rw [htail, List.append_nil] at hpr
            exact hhead pr hpr
      · have hyP : ∀ e ∈ (runYear w y st (startPageOf st y)).1,
            ¬ ((e.1 == P) = true) := by
          intro e he
          simp only [beq_iff_eq]
          rw [(runYear_trace_mem w y st (startPageOf st y) e he).1]
          exact hy
        have hchunkP : ∀ p, ¬ ((P, p) ∈ (runYear w y st (startPageOf st y)).1) := by
          intro p hp
          exact hy ((runYear_trace_mem w y st (startPageOf st y) (P, p) hp).1).symm
        cases hr : (runYear w y st (startPageOf st y)).2.2 with
        | aborted a =>
          dsimp only
          constructor
          · intro p hp
            exact absurd hp (hchunkP p)
          · intro pr hpr
            rw [List.filter_eq_nil_iff.mpr hyP] at hpr
            simp at hpr
        | finished =>
          dsimp only
          have hst2 : lookupLSP (eraseLSP
              (runYear w y st (startPageOf st y)).2.1.lastSuccessfulPage
              y) P = some k := by
            rw [lookupLSP_erase_other _ y P (fun hp => hy hp.symm)]
            rw [runYear_lsp_other w y st (startPageOf st y) P
              (fun hp => hy hp.symm)]
            exact hst
          obtain ⟨ihA, ihB⟩ := ih (endY + 1 - (y + 1)) (by omega) (y + 1) rfl
            { (runYear w y st (startPageOf st y)).2.1 with
              currentYear := y + 1,
              lastSuccessfulPage := eraseLSP
                (runYear w y st (startPageOf st y)).2.1.lastSuccessfulPage y }
            hst2
          constructor
          · intro p hp
            rcases List.mem_append.mp hp with h1 | h1
            · exact absurd h1 (hchunkP p)
            · exact ihA p h1
          · intro pr hpr
            rw [List.filter_append, List.filter_eq_nil_iff.mpr hyP,
              List.nil_append] at hpr
            exact ihB pr hpr
    · rw [ingestFrom, dif_neg h]
      constructor
      · intro p hp
        simp at hp
      · intro pr hpr
        simp at hpr

/-- C1: resumability.  If the loaded checkpoint has
`lastSuccessfulPage[P] = k`, then in the restarted run every catalog fetch
for partition (year) `P` is for a page at least `k + 1` — pages `1..k` are
never fetched again — and the first fetch for `P`, when there is one, is
exactly page `k + 1`. -/
theorem c1_resumability (w : Nat → Nat → PageOutcome) (endY : Nat)
    (st : ProgressState) (P k : Nat)
    (h : lookupLSP st.lastSuccessfulPage P = some k) :
    (∀ p, (P, p) ∈ (ingestMovies w endY st).1 → k + 1 ≤ p) ∧
    (∀ pr, ((ingestMovies w endY st).1.filter
        (fun e => e.1 == P)).head? = some pr → pr = (P, k + 1)) :=
  ingestFrom_resumes w endY P k st.currentYear st h

/-- C1 witness: resuming year 2020 from `lastSuccessfulPage = 3`, every
2020 fetch is at page 4 or later and the first one is page 4. -/
theorem c1_resumability_witness :
    (∀ p, ((2020 : Nat), p) ∈ (ingestMovies wEx 2020 stEx).1 → 3 + 1 ≤ p) ∧
    (∀ pr, ((ingestMovies wEx 2020 stEx).1.filter
        (fun e => e.1 == 2020)).head? = some pr → pr = (2020, 3 + 1)) :=
  c1_resumability wEx 2020 stEx 2020 3 rfl

end CineRag
